import Mathlib

/-!
# Verification of the CourseDesignTasks code-similarity pipeline

Shallow embedding of the core pipeline of the repository:
tokenizer (`tokenizer.c`, given as `src/unnamed/part_006`), structural
parser (`src/ast_parser.c`), preorder linearizer (`src/ast_serial.c`)
and sequence comparator (`src/edit_distance.c`).

Conventions:
* C strings become `String`, C string vectors (`StrVec`) become `List String`.
* `size_t` / `int` counters become `Nat` (all counters in the source stay
  non-negative; the source guards every decrement with a positivity test).
* Functions that can loop forever in C take an explicit fuel argument and
  return `none` when the fuel runs out.
-/

namespace CourseDesign

/-! ## Sequence comparator (`src/edit_distance.c`)

`min3` is translated verbatim from

    static inline size_t min3(const size_t a, const size_t b, const size_t c) {
        return a < b ? a : b < c ? b : c;
    }

which by C precedence is `a < b ? a : (b < c ? b : c)`. -/

def min3 (a b c : Nat) : Nat :=
  if a < b then a else if b < c then b else c

/-- `eq` from `edit_distance.c`: string equality (the `NULL` cases of the C
code cannot arise here because a `List String` has no null elements). -/
def eq (x y : String) : Bool := x == y

/-- The DP table computed by the two-row loop of `levenshtein_strvec`,
with fuel so that the recursion is structural (any fuel `≥ i + j` gives
the same value, see `wF_congr`).  `wF A B fuel i j` is the value the loop
stores in cell `(i, j)` of the conceptual `(n+1)×(m+1)` grid: row 0 is
`0..m` (`v[0][j] = j`), column 0 is `0..n` (`v[cur][0] = i`), and the
inner loop computes

    v[cur][j] = min3(v[prev][j] + 1, v[cur][j - 1] + 1, v[prev][j - 1] + cost)

with `cost = eq(A->data[i-1], B->data[j-1]) ? 0 : 1`. -/
def wF (A B : List String) : Nat → Nat → Nat → Nat
  | _, i, 0 => i
  | _, 0, j + 1 => j + 1
  | 0, _ + 1, _ + 1 => 0
  | fuel + 1, i + 1, j + 1 =>
    let cost : Nat := if eq (A.getD i "") (B.getD j "") then 0 else 1
    min3 (wF A B fuel i (j + 1) + 1) (wF A B fuel (i + 1) j + 1) (wF A B fuel i j + cost)

/-- Cell `(i, j)` of the DP grid (the fuel `i + j` always suffices). -/
def w (A B : List String) (i j : Nat) : Nat := wF A B (i + j) i j

/-- `levenshtein_strvec` from `edit_distance.c`: swap so that the first
sequence is the longer one, handle the empty cases, then run the DP; the
final `v[prev][m]` is cell `(n, m)`. -/
def levenshtein_strvec (a b : List String) : Nat :=
  if b.length > a.length then levRun b a else levRun a b
where
  /-- the body after the swap: `A` is at least as long as `B`. -/
  levRun (A B : List String) : Nat :=
    if B.length = 0 then A.length
    else if A.length = 0 then B.length
    else w A B A.length B.length

/-- `similarity_from_dist` from `edit_distance.c`, with the C `double`
arithmetic modelled by exact rational arithmetic:
`sim = 1 - dist / max(lenA, lenB)`, and `1` when both lengths are `0`. -/
def similarity_from_dist (dist lenA lenB : Nat) : ℚ :=
  let mx := if lenA > lenB then lenA else lenB
  if mx = 0 then 1 else 1 - (dist : ℚ) / (mx : ℚ)

/-- Modelled from the spec: the DP cells of the reference Levenshtein
edit distance of §4.4 — "row 0 and column 0 are boundary values 0..n and
0..m; cell (i,j) = min(cell(i-1,j)+1, cell(i,j-1)+1, cell(i-1,j-1)+cost)"
with a true three-way minimum and `cost` 0 exactly on equal strings.
Fueled like `wF`; any fuel `≥ i + j` gives the same value. -/
def spec_wF (A B : List String) : Nat → Nat → Nat → Nat
  | _, i, 0 => i
  | _, 0, j + 1 => j + 1
  | 0, _ + 1, _ + 1 => 0
  | fuel + 1, i + 1, j + 1 =>
    let cost : Nat := if A.getD i "" = B.getD j "" then 0 else 1
    Nat.min (spec_wF A B fuel i (j + 1) + 1)
      (Nat.min (spec_wF A B fuel (i + 1) j + 1) (spec_wF A B fuel i j + cost))

/-- Modelled from the spec: the reference Levenshtein edit distance
between two string sequences ("the minimum number of single-element
insertions, deletions, or substitutions needed to transform A into B,
where substitution cost is 0 if the two elements are equal strings and 1
otherwise, and insertion/deletion cost is always 1"), computed by the
classic dynamic program the spec states.  Used only to compare the code
against the claim's reference; `levenshtein_strvec` above is the code. -/
def spec_levenshtein (a b : List String) : Nat :=
  spec_wF a b (a.length + b.length) a.length b.length

/-! ## Token model (`include/std_token.h`) -/

inductive TokenType where
  | TOKEN_EOF | TK_IDENT | TK_KEYWORD | TK_NUMBER
  | TK_STRING | TK_CHAR | TK_OPERATOR | TK_PUNCTUATION
deriving DecidableEq, Repr

inductive KeywordKind where
  | KW_IF | KW_ELSE | KW_FOR | KW_WHILE | KW_DO | KW_SWITCH | KW_CASE | KW_DEFAULT
  | KW_RETURN | KW_BREAK | KW_CONTINUE
  | KW_INT | KW_CHAR | KW_FLOAT | KW_DOUBLE | KW_VOID | KW_STRUCT | KW_TYPEDEF
  | KW_UNKNOWN
deriving DecidableEq, Repr

open TokenType KeywordKind

structure Token where
  type : TokenType
  kw : KeywordKind
  lex : String
  raw : String
  line : Nat
  col : Nat
deriving DecidableEq, Repr

/-! ## Tokenizer (`tokenizer.c`, given as `src/unnamed/part_006`)

The C tokenizer walks a `const char *current` pointer; here the not yet
consumed characters are a `List Char`.  `line`, `col` and the
per-tokenizer `ident_counter` are carried exactly as in the C struct. -/

structure Tokenizer where
  remaining : List Char
  line : Nat
  col : Nat
  ident_counter : Nat
deriving DecidableEq, Repr

/-- The single-quote character, spelled via its code point. -/
def squote : Char := Char.ofNat 39

/-- C `isspace` for the default locale. -/
def isspace (c : Char) : Bool :=
  c = ' ' || c = '\t' || c = '\n' || c = '\x0b' || c = '\x0c' || c = '\r'

/-- C `isdigit`. -/
def isdigit (c : Char) : Bool := '0' ≤ c && c ≤ '9'

/-- C `isalpha` for the default locale. -/
def isalpha (c : Char) : Bool := ('a' ≤ c && c ≤ 'z') || ('A' ≤ c && c ≤ 'Z')

/-- C `isalnum`. -/
def isalnum (c : Char) : Bool := isalpha c || isdigit c

/-- C `isxdigit`. -/
def isxdigit (c : Char) : Bool :=
  isdigit c || ('a' ≤ c && c ≤ 'f') || ('A' ≤ c && c ≤ 'F')

/-- `keyword_table` from `tokenizer.c` (the terminal `{NULL, KW_UNKNOWN}`
entry becomes the end of the list). -/
def keyword_table : List (String × KeywordKind) :=
  [("if", KW_IF), ("else", KW_ELSE), ("for", KW_FOR), ("while", KW_WHILE),
   ("do", KW_DO), ("switch", KW_SWITCH), ("case", KW_CASE), ("default", KW_DEFAULT),
   ("return", KW_RETURN), ("break", KW_BREAK), ("continue", KW_CONTINUE),
   ("int", KW_INT), ("char", KW_CHAR), ("float", KW_FLOAT), ("double", KW_DOUBLE),
   ("void", KW_VOID), ("struct", KW_STRUCT), ("typedef", KW_TYPEDEF)]

/-- `check_keyword`: linear scan of `keyword_table`. -/
def check_keyword (word : String) : KeywordKind :=
  go keyword_table
where
  go : List (String × KeywordKind) → KeywordKind
    | [] => KW_UNKNOWN
    | (w, k) :: rest => if word = w then k else go rest

/-- `create_token` (the `kw` field defaults to `KW_UNKNOWN` as in C). -/
def create_token (type : TokenType) (raw lex : String) (line col : Nat) : Token :=
  { type := type, kw := KW_UNKNOWN, raw := raw, lex := lex, line := line, col := col }

/-- The `while (*current && *current != '\n') current++;` loop of the
line-comment branch of `skip_whitespace_and_comments` (note the C code
updates neither `line` nor `col` here). -/
def skip_line_comment : List Char → List Char
  | [] => []
  | c :: cs => if c = '\n' then c :: cs else skip_line_comment cs

/-- The inner `while (*current)` loop of the block-comment branch of
`skip_whitespace_and_comments`: scan for `*/`, counting lines/columns. -/
def skip_block_comment : List Char → Nat → Nat → List Char × Nat × Nat
  | [], line, col => ([], line, col)
  | c :: cs, line, col =>
    match c, cs with
    | '*', '/' :: rest => (rest, line, col + 2)
    | '\n', _ => skip_block_comment cs (line + 1) 1
    | _, _ => skip_block_comment cs line (col + 1)

/-- The outer loop of `skip_whitespace_and_comments`, with fuel:
each iteration strips one whitespace character, one `//` comment or one
`/* */` comment.  Every iteration consumes at least one character, so a
fuel of `remaining.length + 1` (used by the wrapper below) never runs out. -/
def skipWSF : Nat → Tokenizer → Tokenizer
  | 0, tk => tk
  | fuel + 1, tk =>
    match tk.remaining with
    | [] => tk
    | c :: cs =>
      if isspace c then
        if c = '\n' then
          skipWSF fuel { tk with remaining := cs, line := tk.line + 1, col := 1 }
        else
          skipWSF fuel { tk with remaining := cs, col := tk.col + 1 }
      else
        match c, cs with
        | '/', '/' :: rest =>
          -- the C loop starts at the first '/': both slashes are consumed
          skipWSF fuel { tk with remaining := skip_line_comment rest }
        | '/', '*' :: rest =>
          let (rem, line, col) := skip_block_comment rest tk.line (tk.col + 2)
          skipWSF fuel { tk with remaining := rem, line := line, col := col }
        | _, _ => tk

/-- `skip_whitespace_and_comments`. -/
def skip_whitespace_and_comments (tk : Tokenizer) : Tokenizer :=
  skipWSF (tk.remaining.length + 1) tk

/-- `read_identifier`: take the `[A-Za-z0-9_]*` span, classify it against
the keyword table; keywords keep their spelling, identifiers normalize to
`var_<N>` with the per-tokenizer counter. -/
def read_identifier (tk : Tokenizer) : Token × Tokenizer :=
  let word := tk.remaining.takeWhile (fun c => isalnum c || c = '_')
  let rest := tk.remaining.dropWhile (fun c => isalnum c || c = '_')
  let wordS := String.mk word
  let kw := check_keyword wordS
  if kw ≠ KW_UNKNOWN then
    (⟨TK_KEYWORD, kw, wordS, wordS, tk.line, tk.col⟩,
     { tk with remaining := rest, col := tk.col + word.length })
  else
    (create_token TK_IDENT wordS ("var_" ++ toString tk.ident_counter) tk.line tk.col,
     { tk with remaining := rest
               col := tk.col + word.length
               ident_counter := tk.ident_counter + 1 })

/-- `read_number`: hex (`0x`/`0X`) or decimal with optional fraction and
exponent, then any run of suffix letters; the normalized text is `NUM`. -/
def read_number (tk : Tokenizer) : Token × Tokenizer :=
  let r0 := tk.remaining
  let body :=
    match r0 with
    | '0' :: x :: _ =>
      if x = 'x' ∨ x = 'X' then
        2 + ((r0.drop 2).takeWhile isxdigit).length
      else decimal_span r0
    | _ => decimal_span r0
  let r1 := r0.drop body
  let suffix := (r1.takeWhile (fun c =>
    c = 'L' || c = 'l' || c = 'U' || c = 'u' || c = 'F' || c = 'f')).length
  let len := body + suffix
  let raw := String.mk (r0.take len)
  (create_token TK_NUMBER raw "NUM" tk.line tk.col,
   { tk with remaining := r0.drop len, col := tk.col + len })
where
  /-- number of chars consumed by the decimal branch: digits, an optional
  `.` with digits, an optional exponent with optional sign and digits. -/
  decimal_span (r : List Char) : Nat :=
    let d1 := (r.takeWhile isdigit).length
    let r1 := r.drop d1
    let frac :=
      match r1 with
      | '.' :: rest => 1 + (rest.takeWhile isdigit).length
      | _ => 0
    let r2 := r1.drop frac
    let expo :=
      match r2 with
      | e :: rest =>
        if e = 'e' ∨ e = 'E' then
          match rest with
          | s :: rest2 =>
            if s = '+' ∨ s = '-' then 2 + (rest2.takeWhile isdigit).length
            else 1 + (rest.takeWhile isdigit).length
          | [] => 1
        else 0
      | [] => 0
    d1 + frac + expo

/-- The body loop of `read_string`: stop at `"` or end of input; a
backslash consumes the following character unconditionally. -/
def string_body : List Char → Nat → Nat → List Char × Nat × Nat
  | [], line, col => ([], line, col)
  | c :: cs, line, col =>
    if c = '"' then (c :: cs, line, col)
    else if c = '\\' then
      match cs with
      | [] => ([], line, col + 1)
      | _ :: ds => string_body ds line (col + 2)
    else if c = '\n' then string_body cs (line + 1) 1
    else string_body cs line (col + 1)

/-- `read_string`: consume the opening quote, the body, and the closing
quote when present; the normalized text is `STR`. -/
def read_string (tk : Tokenizer) : Token × Tokenizer :=
  let r0 := tk.remaining
  let (r1, line1, col1) := string_body (r0.drop 1) tk.line (tk.col + 1)
  let (r2, col2) :=
    match r1 with
    | '"' :: rest => (rest, col1 + 1)
    | _ => (r1, col1)
  let raw := String.mk (r0.take (r0.length - r2.length))
  (create_token TK_STRING raw "STR" tk.line tk.col,
   { tk with remaining := r2, line := line1, col := col2 })

/-- `read_char`: consume the opening quote, an optional backslash, one
character, and the closing quote when present.  The normalized text the C
code stores is the four-letter string `CHAR` (see the
`create_token(TK_CHAR, ch, "CHAR", ...)` call in `tokenizer.c`). -/
def read_char_scan (r1 : List Char) (col1 : Nat) : List Char × Nat :=
  let s2 : List Char × Nat :=
    match r1 with
    | '\\' :: rest => (rest, col1 + 1)
    | _ => (r1, col1)
  let s3 : List Char × Nat :=
    match s2.1 with
    | _ :: rest => (rest, s2.2 + 1)
    | [] => s2
  match s3.1 with
  | c :: rest => if c = squote then (rest, s3.2 + 1) else s3
  | [] => s3

def read_char (tk : Tokenizer) : Token × Tokenizer :=
  let rc := read_char_scan (tk.remaining.drop 1) (tk.col + 1)
  (create_token TK_CHAR
    (String.mk (tk.remaining.take (tk.remaining.length - rc.1.length))) "CHAR" tk.line tk.col,
   { tk with remaining := rc.1, col := rc.2 })

/-- The fixed two-character operator table of `read_operator`, written as
the C if-chain: given the first character and the following one, is the
pair a two-character operator? -/
def op_pair (c d : Char) : Bool :=
  (c = '=' && d = '=') || (c = '!' && d = '=') || (c = '<' && d = '=') ||
  (c = '>' && d = '=') || (c = '&' && d = '&') || (c = '|' && d = '|') ||
  (c = '+' && d = '+') || (c = '-' && d = '-') || (c = '+' && d = '=') ||
  (c = '-' && d = '=') || (c = '*' && d = '=') || (c = '/' && d = '=') ||
  (c = '%' && d = '=') || (c = '<' && d = '<') || (c = '>' && d = '>') ||
  (c = '-' && d = '>')

/-- `read_operator`: one character, extended by one more when the pair is
in the two-character table; normalized text equals the spelling. -/
def read_operator (tk : Tokenizer) : Token × Tokenizer :=
  match tk.remaining with
  | [] => (create_token TK_OPERATOR "" "" tk.line tk.col, tk)
  | c :: cs =>
    match cs with
    | d :: rest =>
      if op_pair c d then
        let op := String.mk [c, d]
        (create_token TK_OPERATOR op op tk.line tk.col,
         { tk with remaining := rest, col := tk.col + 2 })
      else
        let op := String.mk [c]
        (create_token TK_OPERATOR op op tk.line tk.col,
         { tk with remaining := cs, col := tk.col + 1 })
    | [] =>
      let op := String.mk [c]
      (create_token TK_OPERATOR op op tk.line tk.col,
       { tk with remaining := cs, col := tk.col + 1 })

/-- `read_punctuation`: a single character, normalized to itself. -/
def read_punctuation (tk : Tokenizer) : Token × Tokenizer :=
  match tk.remaining with
  | [] => (create_token TK_PUNCTUATION "" "" tk.line tk.col, tk)
  | c :: cs =>
    let s := String.mk [c]
    (create_token TK_PUNCTUATION s s tk.line tk.col,
     { tk with remaining := cs, col := tk.col + 1 })

/-- The operator start set `"+-*/%=!<>&|^~"` of `tokenizer_next_token`. -/
def op_start : List Char := ['+', '-', '*', '/', '%', '=', '!', '<', '>', '&', '|', '^', '~']

/-- The punctuation set `"()\x7b\x7d[];,."` of `tokenizer_next_token`. -/
def punc_chars : List Char := ['(', ')', '\x7b', '\x7d', '[', ']', ';', ',', '.']

/-- `tokenizer_next_token` with fuel for its unknown-byte recursion (the C
function calls itself after skipping a byte neither the operator nor the
punctuation table knows).  Each recursive call consumes at least one
character, so the wrapper's fuel `remaining.length + 1` never runs out. -/
def next_tokenF : Nat → Tokenizer → Token × Tokenizer
  | 0, tk => (create_token TOKEN_EOF "" "" tk.line tk.col, tk)
  | fuel + 1, tk =>
    let tk1 := skip_whitespace_and_comments tk
    match tk1.remaining with
    | [] => (create_token TOKEN_EOF "" "" tk1.line tk1.col, tk1)
    | c :: cs =>
      if isalpha c || c = '_' then read_identifier tk1
      else if isdigit c then read_number tk1
      else if c = '"' then read_string tk1
      else if c = squote then read_char tk1
      else if op_start.contains c then read_operator tk1
      else if punc_chars.contains c then read_punctuation tk1
      else next_tokenF fuel { tk1 with remaining := cs, col := tk1.col + 1 }

/-- `tokenizer_next_token`. -/
def tokenizer_next_token (tk : Tokenizer) : Token × Tokenizer :=
  next_tokenF (tk.remaining.length + 1) tk

/-- `tokenizer_is_eof` (it first skips whitespace and comments; the C
function mutates the tokenizer, so the caller's loop below re-skips). -/
def tokenizer_is_eof (tk : Tokenizer) : Bool :=
  (skip_whitespace_and_comments tk).remaining.isEmpty

/-- `tokenizer_init`. -/
def tokenizer_init (source : String) : Tokenizer :=
  { remaining := source.data, line := 1, col := 1, ident_counter := 0 }

/-- The collection loop of `tokenize_code` in `main.c`: pull tokens until
`tokenizer_is_eof` or an end-of-input token, keeping only substantive
tokens (the EOF token is not stored).  Fueled; each kept token consumes at
least one character, so `remaining.length + 1` iterations suffice. -/
def tokenize_codeF : Nat → Tokenizer → List Token → List Token
  | 0, _, acc => acc
  | fuel + 1, tk, acc =>
    if tokenizer_is_eof tk then acc
    else
      let (tok, tk') := tokenizer_next_token tk
      if tok.type = TOKEN_EOF then acc
      else tokenize_codeF fuel tk' (acc ++ [tok])

/-- `tokenize_code` from `main.c`: the token array handed to the parser. -/
def tokenize_code (source : String) : List Token :=
  tokenize_codeF (source.data.length + 1) (tokenizer_init source) []

/-! ## AST model (`include/ast.h`, `src/ast.c`) -/

inductive ASTKind where
  | AST_PROGRAM | AST_FUNCTION | AST_BLOCK
  | AST_IF | AST_FOR | AST_WHILE | AST_DO_WHILE | AST_SWITCH | AST_CASE | AST_DEFAULT
  | AST_RETURN | AST_BREAK | AST_CONTINUE
  | AST_STMT | AST_EXPR | AST_TOKEN
deriving DecidableEq, Repr

open ASTKind

/-- `ASTNode`: kind, optional text (`char* text`, `NULL` becomes `none`),
and the ordered child list. -/
inductive ASTNode where
  | mk (kind : ASTKind) (text : Option String) (children : List ASTNode)

def ASTNode.kind : ASTNode → ASTKind
  | .mk k _ _ => k

def ASTNode.text : ASTNode → Option String
  | .mk _ t _ => t

def ASTNode.children : ASTNode → List ASTNode
  | .mk _ _ cs => cs

/-- `ast_kind_name` from `ast.c`. -/
def ast_kind_name : ASTKind → String
  | AST_PROGRAM => "PROGRAM"
  | AST_FUNCTION => "FUNCTION"
  | AST_BLOCK => "BLOCK"
  | AST_IF => "IF"
  | AST_FOR => "FOR"
  | AST_WHILE => "WHILE"
  | AST_DO_WHILE => "DO_WHILE"
  | AST_SWITCH => "SWITCH"
  | AST_CASE => "CASE"
  | AST_DEFAULT => "DEFAULT"
  | AST_RETURN => "RETURN"
  | AST_BREAK => "BREAK"
  | AST_CONTINUE => "CONTINUE"
  | AST_STMT => "STMT"
  | AST_EXPR => "EXPR"
  | AST_TOKEN => "TOKEN"

/-! ## Structural parser (`src/ast_parser.c`)

The C parser walks a `Token* const* toks` array with an index `pos`.
A `Token*` that may be `NULL` becomes `Option Token`.  The parser's
top-level loop can fail to make progress (see the claims), so every
function that can loop or recurse takes fuel and returns `none` when the
fuel runs out; a run of the C code corresponds to the limit of ever-larger
fuels. -/

structure ParserState where
  toks : List Token
  pos : Nat
deriving DecidableEq, Repr

/-- `peek(p, 0)` / `cur(p)`: the current token, `none` past the end. -/
def cur (p : ParserState) : Option Token := p.toks.get? p.pos

/-- `is_eof`: a `NULL` token or an end-of-input token. -/
def is_eofT : Option Token → Bool
  | none => true
  | some t => t.type = TOKEN_EOF

/-- `consume`: return the current token and advance unless at EOF. -/
def consume (p : ParserState) : Option Token × ParserState :=
  let t := cur p
  if is_eofT t then (t, p) else (t, { p with pos := p.pos + 1 })

/-- `is_kw` on an optional token. -/
def is_kwT (t : Option Token) (kw : KeywordKind) : Bool :=
  match t with
  | some t => t.type = TK_KEYWORD && t.kw = kw
  | none => false

/-- `is_punc` on an optional token. -/
def is_puncT (t : Option Token) (s : String) : Bool :=
  match t with
  | some t => t.type = TK_PUNCTUATION && t.lex = s
  | none => false

/-- `kw_label` from `ast_parser.c` (note: the type keywords fall into the
`default` branch and label as `KW`). -/
def kw_label : KeywordKind → String
  | KW_IF => "IF"
  | KW_ELSE => "ELSE"
  | KW_FOR => "FOR"
  | KW_WHILE => "WHILE"
  | KW_DO => "DO"
  | KW_SWITCH => "SWITCH"
  | KW_CASE => "CASE"
  | KW_DEFAULT => "DEFAULT"
  | KW_BREAK => "BREAK"
  | KW_CONTINUE => "CONTINUE"
  | KW_RETURN => "RETURN"
  | _ => "KW"

/-- `token_label` from `ast_parser.c`. -/
def token_label : Option Token → String
  | none => "NULL"
  | some t =>
    if t.type = TK_KEYWORD then kw_label t.kw
    else if t.type = TK_IDENT then t.lex
    else if t.type = TK_NUMBER then "NUM"
    else if t.type = TK_STRING then "STR"
    else if t.type = TK_CHAR then "CHR"
    else if t.type = TK_OPERATOR ∨ t.type = TK_PUNCTUATION then t.lex
    else "TOK"

/-- `leaf_from_token`. -/
def leaf_from_token (t : Option Token) : ASTNode :=
  ASTNode.mk AST_TOKEN (some (token_label t)) []

/-- The scanning loop of `looks_like_function`, with its index `i`,
parenthesis depth `par` and the `saw_l`/`saw_r` flags.  Each iteration
moves `i` forward, so fuel `toks.length - pos + 1` suffices. -/
def llf_loop : Nat → ParserState → Nat → Nat → Bool → Bool → Bool
  | 0, _, _, _, _, _ => false
  | fuel + 1, p, i, par, saw_l, saw_r =>
    match p.toks.get? i with
    | none => false
    | some t =>
      if t.type = TOKEN_EOF then false
      else if par = 0 ∧ is_puncT (some t) ";" then false
      else if is_puncT (some t) "(" then llf_loop fuel p (i + 1) (par + 1) true saw_r
      else if is_puncT (some t) ")" then
        -- C: if (par > 0) par--; then if (par == 0 && saw_l) saw_r = 1
        let par1 := par - 1
        llf_loop fuel p (i + 1) par1 saw_l (if par1 = 0 ∧ saw_l then true else saw_r)
      else if par = 0 ∧ is_puncT (some t) "\x7b" then saw_l && saw_r
      else llf_loop fuel p (i + 1) par saw_l saw_r

/-- `looks_like_function`. -/
def looks_like_function (p : ParserState) : Bool :=
  llf_loop (p.toks.length - p.pos + 1) p p.pos 0 false false

/-- The collection loop of `parse_paren_expr`: consume tokens, tracking
`depth` (never incremented — the C code has no `(` case), until the `)`
that brings `depth` to zero. -/
def paren_loop : Nat → ParserState → Nat → List ASTNode → Option (List ASTNode × ParserState)
  | 0, _, _, _ => none
  | fuel + 1, p, depth, acc =>
    if is_eofT (cur p) ∨ depth = 0 then some (acc, p)
    else
      let (t, p1) := consume p
      if is_puncT t ")" then
        let depth1 := depth - 1
        if depth1 = 0 then some (acc, p1)
        else paren_loop fuel p1 depth1 (acc ++ [leaf_from_token t])
      else paren_loop fuel p1 depth (acc ++ [leaf_from_token t])

/-- `parse_paren_expr`: `none` result component when the current token is
not `(` (the C function returns `NULL`). -/
def parse_paren_expr (fuel : Nat) (p : ParserState) : Option (Option ASTNode × ParserState) :=
  if ¬ is_puncT (cur p) "(" then some (none, p)
  else
    (paren_loop fuel (consume p).2 1 []).map
      (fun r => (some (ASTNode.mk AST_EXPR none r.1), r.2))

/-- The loop of `parse_until_semicolon` with its `par`/`brk` counters
(`if (par > 0) par--` is `Nat` subtraction). -/
def until_semi_loop : Nat → ParserState → Nat → Nat → List ASTNode →
    Option (List ASTNode × ParserState)
  | 0, _, _, _, _ => none
  | fuel + 1, p, par, brk, acc =>
    if is_eofT (cur p) then some (acc, p)
    else
      let t := cur p
      let par1 := if is_puncT t "(" then par + 1
        else if is_puncT t ")" then par - 1 else par
      let brk1 := if is_puncT t "[" then brk + 1
        else if is_puncT t "]" then brk - 1 else brk
      if par1 = 0 ∧ brk1 = 0 ∧ is_puncT t ";" then some (acc, (consume p).2)
      else if par1 = 0 ∧ brk1 = 0 ∧ is_puncT t "\x7b" then some (acc, p)
      else if par1 = 0 ∧ brk1 = 0 ∧ is_puncT t "\x7d" then some (acc, p)
      else until_semi_loop fuel (consume p).2 par1 brk1 (acc ++ [leaf_from_token t])

/-- `parse_until_semicolon`: wrap the collected tokens in a node of the
requested kind. -/
def parse_until_semicolon (fuel : Nat) (kind : ASTKind) (p : ParserState) :
    Option (ASTNode × ParserState) :=
  (until_semi_loop fuel p 0 0 []).map (fun r => (ASTNode.mk kind none r.1, r.2))

/-- The expression-collecting loop of `parse_case`: tokens up to `:`,
stopping early at `\x7b`, `\x7d` or EOF. -/
def case_expr_loop : Nat → ParserState → List ASTNode → Option (List ASTNode × ParserState)
  | 0, _, _ => none
  | fuel + 1, p, acc =>
    if is_eofT (cur p) ∨ is_puncT (cur p) ":" ∨ is_puncT (cur p) "\x7b" ∨
        is_puncT (cur p) "\x7d" then
      some (acc, p)
    else
      let (t, p1) := consume p
      case_expr_loop fuel p1 (acc ++ [leaf_from_token t])

/-- The header-collecting loop of `parse_function`: every token before the
opening brace becomes a leaf of the `FUNC_HEADER` wrapper. -/
def func_header_loop : Nat → ParserState → List ASTNode → Option (List ASTNode × ParserState)
  | 0, _, _ => none
  | fuel + 1, p, acc =>
    if is_eofT (cur p) ∨ is_puncT (cur p) "\x7b" then some (acc, p)
    else
      let (t, p1) := consume p
      func_header_loop fuel p1 (acc ++ [leaf_from_token t])

mutual

/-- `parse_statement`: dispatch on the current token. -/
def parse_statement : Nat → ParserState → Option (Option ASTNode × ParserState)
  | 0, _ => none
  | fuel + 1, p =>
    let t := cur p
    if is_eofT t then some (none, p)
    else if is_puncT t "\x7b" then parse_block fuel p
    else if is_kwT t KW_IF then parse_if fuel p
    else if is_kwT t KW_FOR then parse_for fuel p
    else if is_kwT t KW_WHILE then parse_while fuel p
    else if is_kwT t KW_DO then parse_do_while fuel p
    else if is_kwT t KW_SWITCH then parse_switch fuel p
    else if is_kwT t KW_CASE then parse_case fuel p
    else if is_kwT t KW_DEFAULT then parse_default fuel p
    else if is_kwT t KW_RETURN then parse_return fuel p
    else if is_kwT t KW_BREAK then parse_break fuel p
    else if is_kwT t KW_CONTINUE then parse_continue fuel p
    else (parse_until_semicolon fuel AST_STMT p).map (fun r => (some r.1, r.2))

/-- `parse_block`: `\x7b`, statements until `\x7d` or EOF, optional `\x7d`. -/
def parse_block : Nat → ParserState → Option (Option ASTNode × ParserState)
  | 0, _ => none
  | fuel + 1, p =>
    if ¬ is_puncT (cur p) "\x7b" then some (none, p)
    else
      match block_loop fuel (consume p).2 [] with
      | none => none
      | some (kids, p1) =>
        let p2 := if is_puncT (cur p1) "\x7d" then (consume p1).2 else p1
        some (some (ASTNode.mk AST_BLOCK none kids), p2)

/-- The statement loop of `parse_block`: a `NULL` statement causes a
one-token skip. -/
def block_loop : Nat → ParserState → List ASTNode → Option (List ASTNode × ParserState)
  | 0, _, _ => none
  | fuel + 1, p, acc =>
    if is_eofT (cur p) ∨ is_puncT (cur p) "\x7d" then some (acc, p)
    else
      match parse_statement fuel p with
      | none => none
      | some (some n, p1) => block_loop fuel p1 (acc ++ [n])
      | some (none, p1) => block_loop fuel (consume p1).2 acc

/-- `parse_if`: condition, then-branch, optional synthetic `ELSE` block. -/
def parse_if : Nat → ParserState → Option (Option ASTNode × ParserState)
  | 0, _ => none
  | fuel + 1, p =>
    match parse_paren_expr fuel (consume p).2 with
    | none => none
    | some (cond, p1) =>
      match parse_statement fuel p1 with
      | none => none
      | some (thenSt, p2) =>
        let kids := cond.toList ++ thenSt.toList
        if is_kwT (cur p2) KW_ELSE then
          match parse_statement fuel (consume p2).2 with
          | none => none
          | some (elseSt, p4) =>
            let elseNode := ASTNode.mk AST_BLOCK (some "ELSE") elseSt.toList
            some (some (ASTNode.mk AST_IF none (kids ++ [elseNode])), p4)
        else
          some (some (ASTNode.mk AST_IF none kids), p2)

/-- `parse_for`. -/
def parse_for : Nat → ParserState → Option (Option ASTNode × ParserState)
  | 0, _ => none
  | fuel + 1, p =>
    match parse_paren_expr fuel (consume p).2 with
    | none => none
    | some (head, p1) =>
      match parse_statement fuel p1 with
      | none => none
      | some (body, p2) =>
        some (some (ASTNode.mk AST_FOR none (head.toList ++ body.toList)), p2)

/-- `parse_while`. -/
def parse_while : Nat → ParserState → Option (Option ASTNode × ParserState)
  | 0, _ => none
  | fuel + 1, p =>
    match parse_paren_expr fuel (consume p).2 with
    | none => none
    | some (cond, p1) =>
      match parse_statement fuel p1 with
      | none => none
      | some (body, p2) =>
        some (some (ASTNode.mk AST_WHILE none (cond.toList ++ body.toList)), p2)

/-- `parse_do_while`. -/
def parse_do_while : Nat → ParserState → Option (Option ASTNode × ParserState)
  | 0, _ => none
  | fuel + 1, p =>
    match parse_statement fuel (consume p).2 with
    | none => none
    | some (body, p1) =>
      if is_kwT (cur p1) KW_WHILE then
        match parse_paren_expr fuel (consume p1).2 with
        | none => none
        | some (cond, p3) =>
          let p4 := if is_puncT (cur p3) ";" then (consume p3).2 else p3
          some (some (ASTNode.mk AST_DO_WHILE none (body.toList ++ cond.toList)), p4)
      else
        some (some (ASTNode.mk AST_DO_WHILE none body.toList), p1)

/-- `parse_switch`. -/
def parse_switch : Nat → ParserState → Option (Option ASTNode × ParserState)
  | 0, _ => none
  | fuel + 1, p =>
    match parse_paren_expr fuel (consume p).2 with
    | none => none
    | some (cond, p1) =>
      match parse_statement fuel p1 with
      | none => none
      | some (body, p2) =>
        some (some (ASTNode.mk AST_SWITCH none (cond.toList ++ body.toList)), p2)

/-- `parse_case`: expression up to `:`, then a `CASE BODY` block of
statements until the next `case`/`default`/`\x7d`. -/
def parse_case : Nat → ParserState → Option (Option ASTNode × ParserState)
  | 0, _ => none
  | fuel + 1, p =>
    match case_expr_loop fuel (consume p).2 [] with
    | none => none
    | some (ekids, p1) =>
      let p2 := if is_puncT (cur p1) ":" then (consume p1).2 else p1
      let expr := ASTNode.mk AST_EXPR none ekids
      match case_body_loop fuel p2 [] with
      | none => none
      | some (bkids, p3) =>
        let body := ASTNode.mk AST_BLOCK (some "CASE BODY") bkids
        some (some (ASTNode.mk AST_CASE none [expr, body]), p3)

/-- The statement loop shared by `parse_case` and `parse_default`:
statements until `case`, `default`, `\x7d` or EOF. -/
def case_body_loop : Nat → ParserState → List ASTNode → Option (List ASTNode × ParserState)
  | 0, _, _ => none
  | fuel + 1, p, acc =>
    if is_eofT (cur p) ∨ is_kwT (cur p) KW_CASE ∨ is_kwT (cur p) KW_DEFAULT ∨
        is_puncT (cur p) "\x7d" then
      some (acc, p)
    else
      match parse_statement fuel p with
      | none => none
      | some (some n, p1) => case_body_loop fuel p1 (acc ++ [n])
      | some (none, p1) => case_body_loop fuel (consume p1).2 acc

/-- `parse_default`: like `parse_case` without the leading expression. -/
def parse_default : Nat → ParserState → Option (Option ASTNode × ParserState)
  | 0, _ => none
  | fuel + 1, p =>
    let p0 := (consume p).2
    let p1 := if is_puncT (cur p0) ":" then (consume p0).2 else p0
    match case_body_loop fuel p1 [] with
    | none => none
    | some (bkids, p2) =>
      let body := ASTNode.mk AST_BLOCK (some "DEFAULT BODY") bkids
      some (some (ASTNode.mk AST_DEFAULT none [body]), p2)

/-- `parse_return`: keyword, then the expression up to the next `;`. -/
def parse_return : Nat → ParserState → Option (Option ASTNode × ParserState)
  | 0, _ => none
  | fuel + 1, p =>
    match parse_until_semicolon fuel AST_EXPR (consume p).2 with
    | none => none
    | some (expr, p1) =>
      some (some (ASTNode.mk AST_RETURN none [expr]), p1)

/-- `parse_break`. -/
def parse_break : Nat → ParserState → Option (Option ASTNode × ParserState)
  | 0, _ => none
  | _ + 1, p =>
    let p0 := (consume p).2
    let p1 := if is_puncT (cur p0) ";" then (consume p0).2 else p0
    some (some (ASTNode.mk AST_BREAK none []), p1)

/-- `parse_continue`. -/
def parse_continue : Nat → ParserState → Option (Option ASTNode × ParserState)
  | 0, _ => none
  | _ + 1, p =>
    let p0 := (consume p).2
    let p1 := if is_puncT (cur p0) ";" then (consume p0).2 else p0
    some (some (ASTNode.mk AST_CONTINUE none []), p1)

/-- `parse_function`: the `FUNC_HEADER` wrapper, then the body block. -/
def parse_function : Nat → ParserState → Option (Option ASTNode × ParserState)
  | 0, _ => none
  | fuel + 1, p =>
    match func_header_loop fuel p [] with
    | none => none
    | some (hkids, p1) =>
      let header := ASTNode.mk AST_STMT (some "FUNC_HEADER") hkids
      match parse_block fuel p1 with
      | none => none
      | some (body, p2) =>
        some (some (ASTNode.mk AST_FUNCTION none ([header] ++ body.toList)), p2)

/-- The top-level loop of `ast_parse_tokens`: function or statement; a
`NULL` result causes a one-token skip. -/
def top_loop : Nat → ParserState → List ASTNode → Option (List ASTNode × ParserState)
  | 0, _, _ => none
  | fuel + 1, p, acc =>
    if is_eofT (cur p) then some (acc, p)
    else
      match (if looks_like_function p then parse_function fuel p else parse_statement fuel p) with
      | none => none
      | some (some n, p1) => top_loop fuel p1 (acc ++ [n])
      | some (none, p1) => top_loop fuel (consume p1).2 acc

end

/-- `ast_parse_tokens` at a given fuel: the `AST_PROGRAM` root, or `none`
when the fuel runs out. -/
def ast_parse_tokensF (fuel : Nat) (toks : List Token) : Option ASTNode :=
  (top_loop fuel { toks := toks, pos := 0 } []).map
    (fun r => ASTNode.mk AST_PROGRAM none r.1)

/-- `ast_parse_tokens` with a fuel budget generous enough for the concrete
programs considered here. -/
def ast_parse_tokens (toks : List Token) : Option ASTNode :=
  ast_parse_tokensF ((toks.length + 4) * 4) toks

/-! ## Linearizer (`src/ast_serial.c`) -/

mutual

/-- `emit_node`: open marker, the text for `AST_TOKEN` leaves only,
children in order, close marker. -/
def emit_node : ASTNode → List String
  | .mk kind text children =>
    ["<" ++ ast_kind_name kind ++ ">"]
    ++ (if kind = AST_TOKEN then text.toList else [])
    ++ emit_list children
    ++ ["</" ++ ast_kind_name kind ++ ">"]

/-- The `for` loop over children inside `emit_node`. -/
def emit_list : List ASTNode → List String
  | [] => []
  | n :: ns => emit_node n ++ emit_list ns

end

/-- `ast_serialize_preorder`. -/
def ast_serialize_preorder (root : ASTNode) : List String :=
  emit_node root

/-- `process_code` from `main.c`, restricted to the core pipeline:
tokenize, parse, linearize. -/
def process_code (source : String) : Option (List String) :=
  (ast_parse_tokens (tokenize_code source)).map ast_serialize_preorder

/-! ## Lemmas about `min3` and the DP table -/

theorem min3_le_left (a b c : Nat) : min3 a b c ≤ a := by
  unfold min3
  split
  · omega
  · split <;> omega

theorem min3_le_mid (a b c : Nat) : min3 a b c ≤ b := by
  unfold min3
  split
  · omega
  · split <;> omega

theorem min3_cases (a b c : Nat) : min3 a b c = a ∨ min3 a b c = b ∨ min3 a b c = c := by
  unfold min3
  split
  · exact Or.inl rfl
  · split
    · exact Or.inr (Or.inl rfl)
    · exact Or.inr (Or.inr rfl)

theorem min3_eq_left (a b c : Nat) (h : a < b) : min3 a b c = a := by
  unfold min3
  rw [if_pos h]

theorem min3_le_right_of_ge (a b c : Nat) (h : b ≤ a) : min3 a b c ≤ c := by
  unfold min3
  split
  · omega
  · split <;> omega

theorem wF_i0 (A B : List String) (f i : Nat) : wF A B f i 0 = i := by
  cases f <;> cases i <;> rfl

theorem wF_0j (A B : List String) (f j : Nat) : wF A B f 0 j = j := by
  cases f <;> cases j <;> rfl

theorem wF_succ (A B : List String) (f i j : Nat) :
    wF A B (f + 1) (i + 1) (j + 1) =
      min3 (wF A B f i (j + 1) + 1) (wF A B f (i + 1) j + 1)
        (wF A B f i j + if eq (A.getD i "") (B.getD j "") then 0 else 1) := rfl

/-- The fuel does not matter once it covers `i + j`. -/
theorem wF_congr (A B : List String) :
    ∀ f g i j, i + j ≤ f → i + j ≤ g → wF A B f i j = wF A B g i j := by
  intro f
  induction f with
  | zero =>
    intro g i j hf hg
    have hi : i = 0 := by omega
    have hj : j = 0 := by omega
    subst hi; subst hj
    rw [wF_i0, wF_i0]
  | succ f ih =>
    intro g i j hf hg
    cases j with
    | zero => rw [wF_i0, wF_i0]
    | succ j =>
      cases i with
      | zero => rw [wF_0j, wF_0j]
      | succ i =>
        cases g with
        | zero => omega
        | succ g =>
          rw [wF_succ, wF_succ,
            ih g i (j + 1) (by omega) (by omega),
            ih g (i + 1) j (by omega) (by omega),
            ih g i j (by omega) (by omega)]

theorem w_i0 (A B : List String) (i : Nat) : w A B i 0 = i := wF_i0 A B (i + 0) i

theorem w_0j (A B : List String) (j : Nat) : w A B 0 j = j := wF_0j A B (0 + j) j

/-- The defining recurrence of the DP cells, fuel eliminated. -/
theorem w_succ (A B : List String) (i j : Nat) :
    w A B (i + 1) (j + 1) =
      min3 (w A B i (j + 1) + 1) (w A B (i + 1) j + 1)
        (w A B i j + if eq (A.getD i "") (B.getD j "") then 0 else 1) := by
  show wF A B (i + 1 + (j + 1)) (i + 1) (j + 1) = _
  have e1 : i + 1 + (j + 1) = (i + 1 + j) + 1 := by omega
  rw [e1, wF_succ]
  unfold w
  rw [wF_congr A B (i + 1 + j) (i + (j + 1)) i (j + 1) (by omega) (by omega),
    wF_congr A B (i + 1 + j) (i + 1 + j) (i + 1) j (by omega) (by omega),
    wF_congr A B (i + 1 + j) (i + j) i j (by omega) (by omega)]

/-- The recurrence with the cost abstracted to some `c ≤ 1`. -/
theorem w_succ_bound (A B : List String) (i j : Nat) :
    ∃ c, c ≤ 1 ∧
      w A B (i + 1) (j + 1) =
        min3 (w A B i (j + 1) + 1) (w A B (i + 1) j + 1) (w A B i j + c) :=
  ⟨if eq (A.getD i "") (B.getD j "") then 0 else 1,
   by split <;> omega, w_succ A B i j⟩

/-- Neighbouring DP cells differ by at most one, and each diagonal step
increases the cell value by zero or one — even with the skewed `min3`. -/
theorem w_adjacent (A B : List String) (s : Nat) :
    ∀ i j, i + j = s →
      (w A B i (j + 1) ≤ w A B i j + 1 ∧ w A B i j ≤ w A B i (j + 1) + 1) ∧
      (w A B (i + 1) j ≤ w A B i j + 1 ∧ w A B i j ≤ w A B (i + 1) j + 1) ∧
      (w A B i j ≤ w A B (i + 1) (j + 1) ∧ w A B (i + 1) (j + 1) ≤ w A B i j + 1) := by
  induction s using Nat.strong_induction_on with
  | _ s ih =>
    intro i j hs
    have hH : w A B i (j + 1) ≤ w A B i j + 1 ∧ w A B i j ≤ w A B i (j + 1) + 1 := by
      cases i with
      | zero => rw [w_0j, w_0j]; omega
      | succ i =>
        obtain ⟨⟨ha, hb⟩, ⟨hc, hd⟩, _, _⟩ := ih (i + j) (by omega) i j rfl
        obtain ⟨c, hc1, hw⟩ := w_succ_bound A B i j
        rw [hw]
        constructor
        · exact min3_le_mid _ _ _
        · rcases min3_cases (w A B i (j + 1) + 1) (w A B (i + 1) j + 1) (w A B i j + c)
            with h | h | h <;> omega
    have hV : w A B (i + 1) j ≤ w A B i j + 1 ∧ w A B i j ≤ w A B (i + 1) j + 1 := by
      cases j with
      | zero => rw [w_i0, w_i0]; omega
      | succ j =>
        obtain ⟨⟨ha, hb⟩, ⟨hc, hd⟩, _, _⟩ := ih (i + j) (by omega) i j rfl
        obtain ⟨c, hc1, hw⟩ := w_succ_bound A B i j
        rw [hw]
        constructor
        · exact min3_le_left _ _ _
        · rcases min3_cases (w A B i (j + 1) + 1) (w A B (i + 1) j + 1) (w A B i j + c)
            with h | h | h <;> omega
    refine ⟨hH, hV, ?_, ?_⟩
    · obtain ⟨c, hc1, hw⟩ := w_succ_bound A B i j
      rw [hw]
      rcases min3_cases (w A B i (j + 1) + 1) (w A B (i + 1) j + 1) (w A B i j + c)
        with h | h | h <;> omega
    · obtain ⟨c, hc1, hw⟩ := w_succ_bound A B i j
      rw [hw]
      by_cases hlt : w A B i (j + 1) + 1 < w A B (i + 1) j + 1
      · rw [min3_eq_left _ _ _ hlt]
        omega
      · have := min3_le_right_of_ge (w A B i (j + 1) + 1) (w A B (i + 1) j + 1)
          (w A B i j + c) (by omega)
        omega

/-- Iterated diagonal bound: `k` diagonal steps add at most `k`. -/
theorem w_diag_le (A B : List String) :
    ∀ k i j, w A B (i + k) (j + k) ≤ w A B i j + k := by
  intro k
  induction k with
  | zero => intro i j; exact le_refl _
  | succ k ih =>
    intro i j
    have h1 := (w_adjacent A B ((i + k) + (j + k)) (i + k) (j + k) rfl).2.2.2
    have h2 := ih i j
    have e1 : i + (k + 1) = (i + k) + 1 := by omega
    have e2 : j + (k + 1) = (j + k) + 1 := by omega
    rw [e1, e2]
    omega

/-- After the swap (`m ≤ n`) the final cell is at most `n`. -/
theorem w_le_of_ge (A B : List String) (n m : Nat) (h : m ≤ n) : w A B n m ≤ n := by
  have h2 := w_diag_le A B m (n - m) 0
  rw [w_i0] at h2
  have e1 : n - m + m = n := by omega
  have e2 : 0 + m = m := by omega
  rw [e1, e2] at h2
  omega

/-- The computed distance never exceeds the longer input's length. -/
theorem levenshtein_strvec_le_max (a b : List String) :
    levenshtein_strvec a b ≤ max a.length b.length := by
  have key : ∀ A B : List String, B.length ≤ A.length →
      levenshtein_strvec.levRun A B ≤ A.length := by
    intro A B h
    unfold levenshtein_strvec.levRun
    split_ifs with h1 h2
    · omega
    · omega
    · exact w_le_of_ge A B _ _ h
  unfold levenshtein_strvec
  split_ifs with h
  · exact le_trans (key b a (by omega)) (le_max_right _ _)
  · exact le_trans (key a b (by omega)) (le_max_left _ _)

/-! ## The claims -/

/-- C10: the claim says `min3(a, b, c)` returns the minimum of its three
arguments; the C body `a < b ? a : b < c ? b : c` does not — at
`(5, 10, 3)` it returns `5` while the minimum is `3` (the function's own
doc comment promises the three-way minimum, so this is a slip in the
code). -/
theorem min3_not_minimum_at_5_10_3 :
    min3 5 10 3 = 5 ∧ Nat.min 5 (Nat.min 10 3) = 3 := by decide

/-- C1: `levenshtein_strvec` does not compute the reference Levenshtein
distance.  On `A = ["a"]`, `B = ["b", "a"]` the code returns `2`, while
the reference distance (one insertion) is `1`: inside the DP the skewed
`min3` picks the deletion branch even though the cheaper substitution
branch is available. -/
theorem levenshtein_strvec_not_reference :
    levenshtein_strvec ["a"] ["b", "a"] = 2 ∧ spec_levenshtein ["a"] ["b", "a"] = 1 := by
  constructor <;> decide

/-- C6: `levenshtein_strvec` is not symmetric.  For the equal-length pair
`A = ["a", "a"]`, `B = ["b", "a"]` no swap happens, and the skewed `min3`
gives `distance(A, B) = 2` but `distance(B, A) = 1`. -/
theorem levenshtein_strvec_not_symmetric :
    levenshtein_strvec ["a", "a"] ["b", "a"] = 2 ∧
    levenshtein_strvec ["b", "a"] ["a", "a"] = 1 := by
  constructor <;> decide

/-- C4: the similarity derived from the computed distance always lies in
`[0, 1]`, and equals `1` when both sequences are empty.  Even though the
skewed `min3` can overshoot the true Levenshtein distance, the computed
distance never exceeds `max(len A, len B)` (`levenshtein_strvec_le_max`),
which is what the bound needs. -/
theorem similarity_from_dist_in_unit_interval (a b : List String) :
    0 ≤ similarity_from_dist (levenshtein_strvec a b) a.length b.length ∧
    similarity_from_dist (levenshtein_strvec a b) a.length b.length ≤ 1 ∧
    (a = [] → b = [] → similarity_from_dist (levenshtein_strvec a b) a.length b.length = 1) := by
  have hmax : (if a.length > b.length then a.length else b.length) = max a.length b.length := by
    split <;> omega
  unfold similarity_from_dist
  rw [hmax]
  by_cases hz : max a.length b.length = 0
  · rw [if_pos hz]
    refine ⟨by norm_num, by norm_num, fun _ _ => rfl⟩
  · rw [if_neg hz]
    set d := levenshtein_strvec a b with hd_def
    set m := max a.length b.length with hm_def
    have hd : d ≤ m := levenshtein_strvec_le_max a b
    have hpos : (0 : ℚ) < (m : ℚ) := by
      have : 0 < m := Nat.pos_of_ne_zero hz
      exact_mod_cast this
    have hdiv_le : (d : ℚ) / (m : ℚ) ≤ 1 := by
      rw [div_le_one hpos]
      exact_mod_cast hd
    have hdiv_nonneg : (0 : ℚ) ≤ (d : ℚ) / (m : ℚ) :=
      div_nonneg (by positivity) (le_of_lt hpos)
    refine ⟨by linarith, by linarith, ?_⟩
    intro ha hb
    exfalso
    apply hz
    subst ha; subst hb
    simp [hm_def]

/-- Witness for C4 at the concrete input `A = B = []` (both hypotheses of
the final conjunct hold there and the similarity is exactly `1`). -/
theorem similarity_from_dist_in_unit_interval_witness :
    similarity_from_dist (levenshtein_strvec [] []) (List.length ([] : List String))
      (List.length ([] : List String)) = 1 :=
  (similarity_from_dist_in_unit_interval [] []).2.2 rfl rfl

/-! ## Non-termination of the parser on a stray closing brace

Tokenizing the one-character source `\x7d` yields one punctuation token.
At the top level, `looks_like_function` says no, `parse_statement` falls
through to `parse_until_semicolon`, which stops at the `\x7d` *without
consuming it* and returns an (empty but non-`NULL`) `Statement` node — so
the top-level loop appends a node, keeps `pos` unchanged, and repeats
forever.  With fuel this shows as `none` for *every* fuel. -/

/-- The token produced for the source `\x7d`. -/
def rbrace_tok : Token :=
  Token.mk TK_PUNCTUATION KW_UNKNOWN "\x7d" "\x7d" 1 1

/-- The parser state at the start of the token array `[rbrace_tok]`. -/
def rbrace_state : ParserState := { toks := [rbrace_tok], pos := 0 }

/-- On a stray `\x7d`, `parse_statement` either runs out of fuel or
produces an empty `Statement` node *without advancing the position*. -/
theorem parse_statement_rbrace (f : Nat) :
    parse_statement f rbrace_state = none ∨
    parse_statement f rbrace_state = some (some (ASTNode.mk AST_STMT none []), rbrace_state) := by
  match f with
  | 0 => exact Or.inl rfl
  | 1 => exact Or.inl rfl
  | f + 2 => exact Or.inr rfl

/-- The top-level loop never finishes on `[rbrace_tok]`, whatever the fuel
and whatever has been accumulated. -/
theorem top_loop_rbrace : ∀ f acc, top_loop f rbrace_state acc = none := by
  intro f
  induction f with
  | zero => intro acc; rfl
  | succ f ih =>
    intro acc
    have step : top_loop (f + 1) rbrace_state acc =
        match parse_statement f rbrace_state with
        | none => none
        | some (some n, p1) => top_loop f p1 (acc ++ [n])
        | some (none, p1) => top_loop f (consume p1).2 acc := rfl
    rw [step]
    rcases parse_statement_rbrace f with h | h
    · rw [h]
    · rw [h]
      exact ih (acc ++ [ASTNode.mk AST_STMT none []])

/-- C2: the parser does **not** terminate on every token sequence.  On the
tokens of the source `\x7d`, `ast_parse_tokens` loops forever: the run
fails to complete for every finite fuel, because `parse_until_semicolon`
returns a non-`NULL` node without consuming the `\x7d`, so the top-level
loop's "skip one token on NULL" guard never fires and the position never
advances. -/
theorem ast_parse_tokens_diverges_on_rbrace :
    ∀ fuel, ast_parse_tokensF fuel (tokenize_code "\x7d") = none := by
  intro fuel
  have e : tokenize_code "\x7d" = [rbrace_tok] := rfl
  rw [e]
  unfold ast_parse_tokensF
  rw [show ({ toks := [rbrace_tok], pos := 0 } : ParserState) = rbrace_state from rfl,
    top_loop_rbrace fuel []]
  rfl

/-! ## Character-literal normalization -/

/-- The three-character source text consisting of a quoted `a`. -/
def char_literal_src : String := String.mk [squote, 'a', squote]

/-- C3 counterexample: on the character literal source `'a'` the token
produced by the tokenizer is a `TK_CHAR` token whose normalized text is
**not** the string `CHR` claimed by the spec (it is `CHAR`, see
`create_token(TK_CHAR, ch, "CHAR", ...)` in `tokenizer.c`). -/
theorem tokenizer_char_lex_not_CHR :
    (tokenizer_next_token (tokenizer_init char_literal_src)).1.type = TK_CHAR ∧
    (tokenizer_next_token (tokenizer_init char_literal_src)).1.lex ≠ "CHR" := by
  constructor
  · rfl
  · decide

/-- C3 (amended): for every tokenizer state whose current character
(after whitespace/comment skipping) opens a character literal, the token
produced has normalized text exactly `"CHAR"` (not `"CHR"`; the `CHR`
label only appears later, when `ast_parser.c`'s `token_label` relabels
`TK_CHAR` tokens for AST leaves). -/
theorem tokenizer_char_lex_CHAR (tk : Tokenizer)
    (h : (skip_whitespace_and_comments tk).remaining.head? = some squote) :
    (tokenizer_next_token tk).1.type = TK_CHAR ∧ (tokenizer_next_token tk).1.lex = "CHAR" := by
  obtain ⟨rest, hrem⟩ : ∃ rest, (skip_whitespace_and_comments tk).remaining = squote :: rest := by
    cases hr : (skip_whitespace_and_comments tk).remaining with
    | nil => rw [hr] at h; simp at h
    | cons c cs =>
      rw [hr] at h
      simp only [List.head?] at h
      exact ⟨cs, by rw [← Option.some_inj.mp h]⟩
  have key : tokenizer_next_token tk = read_char (skip_whitespace_and_comments tk) := by
    unfold tokenizer_next_token
    rw [next_tokenF]
    rw [hrem]
    norm_num [isalpha, isdigit, squote, op_start, punc_chars]
    split_ifs with h1 h2 h3
    · exact absurd h1 (by decide)
    · exact absurd h2 (by decide)
    · exact absurd h3 (by decide)
    · rfl
  rw [key]
  exact ⟨rfl, rfl⟩

/-- Witness for the amended C3 at the concrete source `'a'`. -/
theorem tokenizer_char_lex_CHAR_witness :
    (skip_whitespace_and_comments (tokenizer_init char_literal_src)).remaining.head? =
        some squote ∧
      (tokenizer_next_token (tokenizer_init char_literal_src)).1.type = TK_CHAR ∧
      (tokenizer_next_token (tokenizer_init char_literal_src)).1.lex = "CHAR" :=
  ⟨by decide, tokenizer_char_lex_CHAR (tokenizer_init char_literal_src) (by decide)⟩

/-! ## Serialization claims -/

/-- C5: a node whose kind is not `TokenLeaf` serializes as its open
marker, its children's serializations and its close marker — its `text`
(e.g. the synthetic `ELSE` / `CASE BODY` block labels) is never emitted,
so the serialization does not depend on it at all. -/
theorem emit_node_ignores_label_of_non_token (k : ASTKind) (t : Option String)
    (cs : List ASTNode) (h : k ≠ AST_TOKEN) :
    emit_node (ASTNode.mk k t cs) =
      ["<" ++ ast_kind_name k ++ ">"] ++ emit_list cs ++ ["</" ++ ast_kind_name k ++ ">"] ∧
    emit_node (ASTNode.mk k t cs) = emit_node (ASTNode.mk k none cs) := by
  constructor
  · simp [emit_node, h]
  · simp [emit_node, h]

/-- Witness for C5 at the synthetic `ELSE` wrapper the parser builds:
an `AST_BLOCK` labeled `"ELSE"` serializes exactly like an unlabeled one. -/
theorem emit_node_ignores_label_of_non_token_witness :
    AST_BLOCK ≠ AST_TOKEN ∧
    (emit_node (ASTNode.mk AST_BLOCK (some "ELSE") []) =
        ["<" ++ ast_kind_name AST_BLOCK ++ ">"] ++ emit_list [] ++
          ["</" ++ ast_kind_name AST_BLOCK ++ ">"] ∧
      emit_node (ASTNode.mk AST_BLOCK (some "ELSE") []) =
        emit_node (ASTNode.mk AST_BLOCK none [])) :=
  ⟨by decide, emit_node_ignores_label_of_non_token AST_BLOCK (some "ELSE") [] (by decide)⟩

/-! ## Concrete pipeline claims -/

/-- The flat sequence both C7 sources linearize to. -/
def if_return_seq : List String :=
  ["<PROGRAM>", "<FUNCTION>", "<STMT>", "<TOKEN>", "IF", "</TOKEN>", "<TOKEN>", "(", "</TOKEN>",
   "<TOKEN>", "var_0", "</TOKEN>", "<TOKEN>", ">", "</TOKEN>", "<TOKEN>", "NUM", "</TOKEN>",
   "<TOKEN>", ")", "</TOKEN>", "</STMT>", "<BLOCK>", "<RETURN>", "<EXPR>", "<TOKEN>", "NUM",
   "</TOKEN>", "</EXPR>", "</RETURN>", "</BLOCK>", "</FUNCTION>", "</PROGRAM>"]

set_option maxHeartbeats 2000000 in
/-- C7: running the pipeline (tokenize, parse, linearize) on
`if(x>5)\x7breturn 1;\x7d` and on the same source with extra whitespace
produces two identical flat sequences (and the runs succeed). -/
theorem pipeline_whitespace_invariant :
    process_code "if(x>5)\x7breturn 1;\x7d" = process_code "if (x > 5) \x7b return 1 ; \x7d" ∧
    (process_code "if(x>5)\x7breturn 1;\x7d").isSome = true := by
  have h1 : process_code "if(x>5)\x7breturn 1;\x7d" = some if_return_seq := by decide
  have h2 : process_code "if (x > 5) \x7b return 1 ; \x7d" = some if_return_seq := by decide
  exact ⟨h1.trans h2.symm, by rw [h1]; rfl⟩

set_option maxHeartbeats 2000000 in
/-- C8: parsing `int f(int x) \x7b return x; \x7d` yields a Program root
with exactly one child, a Function node whose first child is the
`FUNC_HEADER` `Statement` wrapper holding — as token leaves — exactly the
tokens before the opening brace, and whose second child is a Block. -/
theorem parse_function_header_block :
    ast_parse_tokens (tokenize_code "int f(int x) \x7b return x; \x7d") =
      some (ASTNode.mk AST_PROGRAM none [ASTNode.mk AST_FUNCTION none
        [ASTNode.mk AST_STMT (some "FUNC_HEADER")
           (((tokenize_code "int f(int x) \x7b return x; \x7d").takeWhile
               (fun t => ¬ is_puncT (some t) "\x7b")).map (fun t => leaf_from_token (some t))),
         ASTNode.mk AST_BLOCK none
           [ASTNode.mk AST_RETURN none
             [ASTNode.mk AST_EXPR none [ASTNode.mk AST_TOKEN (some "var_2") []]]]]]) := by
  rfl

/-- C9: an empty source tokenizes to zero substantive tokens, the empty
token sequence parses to a Program node with zero children, and the
pipeline linearizes the result to exactly `["<PROGRAM>", "</PROGRAM>"]`. -/
theorem pipeline_empty_source :
    tokenize_code "" = [] ∧
    ast_parse_tokens [] = some (ASTNode.mk AST_PROGRAM none []) ∧
    process_code "" = some ["<PROGRAM>", "</PROGRAM>"] :=
  ⟨rfl, rfl, rfl⟩

end CourseDesign
